import Mathlib

/-!
# Verification of the aigile batch pipeline

A shallow embedding, in Lean 4, of the orchestration core of the aigile
repository (`cmd/generate` / `runGenerate`), of its issue-body formatter
(`formatDescription`), of the two tabular readers (`XLSXReader.Read`,
`GoogleSheetsReader.Read`), and of the LLM response cleaner
(`cleanJSONResponse`).

Modelling conventions:
* Go strings are modelled as Lean `String`s; Go's byte-indexed slicing is
  modelled character-wise (`goSlice`), returning `none` where the Go slice
  expression would panic with an out-of-range index.
* The external collaborators (LLM generator, tracker publisher) are modelled
  as oracles: records of functions returning `Except String _`, mirroring the
  Go interfaces `llm.Provider` and `provider.Provider`.
* The observable behaviour of one run is a trace of events (`Ev`): one event
  per collaborator call at each call site, plus one event per logged warning.
  `slog.Info`/`slog.Debug` lines are not modelled.
* Go `int` / `int64` issue numbers and ids are modelled as `Int`.
-/

namespace Aigile

/-- `prompt.ItemType` is a string; `IsValid` recognizes the fixed enum of
item types (the extended variant recognizes `Epic`, `Feature`, `User Story`
and `Task`; the reduced variant only `User Story`; validity of the concrete
literals used below agrees in both). -/
def isValidItemType (t : String) : Bool :=
  t == "Epic" || t == "Feature" || t == "User Story" || t == "Task"

/-- `reader.Item`: one row read from a source. -/
structure Item where
  type : String
  parent : String
  context : String
  criteria : List String
deriving DecidableEq, Repr

/-- `llm.GeneratedContent`: the structured output of the LLM. -/
structure GeneratedContent where
  title : String
  description : String
  acceptanceCriteria : List String
  suggestedTasks : List String
  type : String
deriving DecidableEq, Repr

/-- `provider.ProjectInfo`: a resolved GitHub Project v2. -/
structure ProjectInfo where
  projectNumber : Int
  projectOwner : String
  projectID : String
deriving DecidableEq, Repr

/-- The identity of a created issue, as exposed by the `provider.Issue`
interface (`GetNumber`, `GetID`, `GetHTMLURL`). -/
structure IssueInfo where
  number : Int
  id : Int
  url : String
deriving DecidableEq, Repr

/-- `provider.Provider`: the tracker publisher, as an oracle.  Each field is
one operation of the Go interface; an `Except.error` models a returned Go
error.  (`GetProjectByName` in `github.go` returns a `nil` project on every
error path, which the `Except` shape captures.) -/
structure Provider where
  createIssue : String → String → List String → Option ProjectInfo → Except String IssueInfo
  addSubIssue : Int → Int → Except String Unit
  getProjectByName : String → Except String ProjectInfo

/-- `llm.Provider.GenerateContent` as an oracle: arguments are item type,
parent, context, criteria, language, generateTasks. -/
def Gen : Type :=
  String → String → String → List String → String → Bool → Except String GeneratedContent

/-- Observable events of one run: collaborator calls (at their call sites)
and logged warnings. -/
inductive Ev where
  /-- a `GetProjectByName` call for a non-empty parent -/
  | lookupProject (parent : String)
  /-- `slog.Warn "failed to get project info"` -/
  | warnProject (parent : String) (err : String)
  /-- the primary `CreateIssue` call (title, body, labels, project) -/
  | createIssue (title : String) (body : String) (labels : List String)
      (project : Option ProjectInfo)
  /-- a sub-task `CreateIssue` call, recorded by its task string -/
  | createTask (task : String)
  /-- `slog.Warn "failed to create task issue"` -/
  | warnTask (task : String) (err : String)
  /-- an `AddSubIssue` call -/
  | link (parentNumber : Int) (childID : Int)
  /-- `slog.Warn "failed to add sub-issue"` -/
  | warnLink (err : String)
deriving DecidableEq, Repr

/-- The outcome of processing: `ok`, a fatal returned error (aborts the
batch), or a Go runtime fault (an out-of-range slice). -/
inductive StepResult where
  | ok
  | fatal (msg : String)
  | fault
deriving DecidableEq, Repr

/-- Go's string slicing `s[:n]`, which panics when `n` exceeds the length. -/
def goSlice (s : String) (n : Nat) : Option String :=
  if n ≤ s.length then some (s.take n) else none

/-- The fixed decorative tag put in front of every user-story title
(`"[📖 User Story] %s"` in `runGenerate`). -/
def storyTag : String := "[📖 User Story] "

/-- The fixed decorative tag put in front of every sub-task title
(`"[🛠️ Task] %s"` in `runGenerate`). -/
def taskTag : String := "[🛠️ Task] "

/-- `runGenerate` lines 100–104: the generated title verbatim when non-empty,
otherwise `"<type> <context[:50]>"`; then the decorative tag.  `none` models
the panic of `item.Context[:50]` on a context shorter than 50 characters. -/
def computeIssueTitle (item : Item) (content : GeneratedContent) : Option String :=
  if content.title == "" then
    match goSlice item.context 50 with
    | some contextHead => some (storyTag ++ (item.type ++ " " ++ contextHead))
    | none => none
  else
    some (storyTag ++ content.title)

/-- The 1-based numbered list used by `formatDescription`
(`fmt.Sprintf("%d. %s\n", i+1, c)`). -/
def numbered (xs : List String) : String :=
  String.join ((xs.enum).map (fun p => toString (p.1 + 1) ++ ". " ++ p.2 ++ "\n"))

/-- The `"## Acceptance Criteria"` heading literal. -/
def acHeading : String := "## Acceptance Criteria\n"

/-- The `"## Suggested Tasks"` heading literal. -/
def stHeading : String := "## Suggested Tasks\n"

/-- `formatDescription` (part_000 lines 158–184): description, blank line,
then each section appended only when its list is non-empty. -/
def formatDescription (content : GeneratedContent) : String :=
  let sb := content.description ++ "\n\n"
  let sb := if 0 < content.acceptanceCriteria.length then
      sb ++ acHeading ++ numbered content.acceptanceCriteria ++ "\n" else sb
  let sb := if 0 < content.suggestedTasks.length then
      sb ++ stHeading ++ numbered content.suggestedTasks ++ "\n" else sb
  sb

/-- The title of a sub-task issue (`"[🛠️ Task] %s"`). -/
def taskTitleOf (task : String) : String := taskTag ++ task

/-- The body of a sub-task issue
(`"Task for User Story #%d: %s\n\n%s"`). -/
def taskDescOf (parentNumber : Int) (title task : String) : String :=
  "Task for User Story #" ++ toString parentNumber ++ ": " ++ title ++ "\n\n" ++ task

/-- The project lookup step (`runGenerate` lines 106–117): only for a
non-empty parent; a lookup error is logged as a warning and leaves the
project reference `nil`. -/
def projectPhase (p : Provider) (item : Item) : List Ev × Option ProjectInfo :=
  if item.parent == "" then ([], none)
  else
    match p.getProjectByName item.parent with
    | .error e => ([Ev.lookupProject item.parent, Ev.warnProject item.parent e], none)
    | .ok pr => ([Ev.lookupProject item.parent], some pr)

/-- The sub-task publish loop (`runGenerate` lines 129–142): each task is
published in order; a failure warns and `continue`s; a successful issue's id
is collected only when `GetID() != 0`.  Returns (events, collected ids). -/
def publishTasks (p : Provider) (parentNumber : Int) (title : String)
    (project : Option ProjectInfo) : List String → List Ev × List Int
  | [] => ([], [])
  | task :: rest =>
    let res := p.createIssue (taskTitleOf task) (taskDescOf parentNumber title task)
      ["Task"] project
    let acc := publishTasks p parentNumber title project rest
    match res with
    | .error e => (Ev.createTask task :: Ev.warnTask task e :: acc.1, acc.2)
    | .ok iss =>
      (Ev.createTask task :: acc.1, if iss.id != 0 then iss.id :: acc.2 else acc.2)

/-- The linking loop (`runGenerate` lines 144–151): each collected id is
linked to the parent in order; a failure warns and continues. -/
def linkTasks (p : Provider) (parentNumber : Int) : List Int → List Ev
  | [] => []
  | childID :: rest =>
    match p.addSubIssue parentNumber childID with
    | .ok _ => Ev.link parentNumber childID :: linkTasks p parentNumber rest
    | .error e =>
      Ev.link parentNumber childID :: Ev.warnLink e :: linkTasks p parentNumber rest

/-- The whole sub-task block (`runGenerate` lines 126–152), guarded by
`autoTasks && len(content.SuggestedTasks) > 0`, and the linking loop guarded
by `len(taskIDs) > 0`. -/
def subTaskPhase (p : Provider) (autoTasks : Bool) (content : GeneratedContent)
    (parentNumber : Int) (title : String) (project : Option ProjectInfo) : List Ev :=
  if autoTasks && decide (0 < content.suggestedTasks.length) then
    (publishTasks p parentNumber title project content.suggestedTasks).1
      ++ (if 0 < (publishTasks p parentNumber title project content.suggestedTasks).2.length
          then linkTasks p parentNumber
            (publishTasks p parentNumber title project content.suggestedTasks).2
          else [])
  else []

/-- One iteration of `runGenerate`'s item loop (lines 86–153): generate
(fatal on error), compute the title (runtime fault on a short context with an
empty generated title), resolve the project (non-fatal), create the primary
issue (fatal on error), then the sub-task block. -/
def processItem (gen : Gen) (p : Provider) (language : String) (autoTasks : Bool)
    (item : Item) : List Ev × StepResult :=
  match gen item.type item.parent item.context item.criteria language autoTasks with
  | .error e => ([], .fatal ("failed to generate content: " ++ e))
  | .ok content =>
    match computeIssueTitle item content with
    | none => ([], .fault)
    | some title =>
      match p.createIssue title (formatDescription content) [item.type]
          (projectPhase p item).2 with
      | .error e =>
        ((projectPhase p item).1
           ++ [Ev.createIssue title (formatDescription content) [item.type]
                (projectPhase p item).2],
         .fatal ("failed to create issue: " ++ e))
      | .ok createdIssue =>
        ((projectPhase p item).1
           ++ [Ev.createIssue title (formatDescription content) [item.type]
                (projectPhase p item).2]
           ++ subTaskPhase p autoTasks content createdIssue.number title
                (projectPhase p item).2,
         .ok)

/-- The item loop of `runGenerate`: items in order; the first fatal outcome
(or runtime fault) stops the remaining items. -/
def runGenerate (gen : Gen) (p : Provider) (language : String) (autoTasks : Bool) :
    List Item → List Ev × StepResult
  | [] => ([], .ok)
  | item :: rest =>
    match processItem gen p language autoTasks item with
    | (evs, StepResult.ok) =>
      (evs ++ (runGenerate gen p language autoTasks rest).1,
       (runGenerate gen p language autoTasks rest).2)
    | (evs, r) => (evs, r)

/-- `XLSXReader.Read`'s row loop (xlsx.go lines 61–90), over the rows
returned by `GetRows`: the header row (index 0) and any row with fewer than
4 cells are skipped; an unrecognized type aborts with an error; criteria are
the cells from the fourth on. -/
def parseXLSXRows : Nat → List (List String) → Except String (List Item)
  | _, [] => .ok []
  | i, row :: rest =>
    if i == 0 then parseXLSXRows (i + 1) rest
    else if row.length < 4 then parseXLSXRows (i + 1) rest
    else if !(isValidItemType (row.getD 0 "")) then
      .error ("invalid item type at row " ++ toString (i + 1) ++ ": " ++ row.getD 0 "")
    else
      match parseXLSXRows (i + 1) rest with
      | .error e => .error e
      | .ok items =>
        .ok ({ type := row.getD 0 "", parent := row.getD 1 "", context := row.getD 2 "",
               criteria := if 3 < row.length then row.drop 3 else [] } :: items)

/-- `GoogleSheetsReader.Read`'s row loop (part_012 lines 86–107), over the
values returned by `GetValues` (cells modelled as the strings that
`fmt.Sprintf("%v", cell)` yields): same skipping as the XLSX reader, but no
type validation and no per-row error. -/
def parseGoogleRows : Nat → List (List String) → List Item
  | _, [] => []
  | i, row :: rest =>
    if i == 0 then parseGoogleRows (i + 1) rest
    else if row.length < 4 then parseGoogleRows (i + 1) rest
    else
      { type := row.getD 0 "", parent := row.getD 1 "", context := row.getD 2 "",
        criteria := if 3 < row.length then row.drop 3 else [] }
        :: parseGoogleRows (i + 1) rest

/-- `GoogleSheetsReader.Read` after a successful `GetValues`: the row loop
never produces an error. -/
def googleSheetsRead (values : List (List String)) : Except String (List Item) :=
  .ok (parseGoogleRows 0 values)

/-- `strings.Index(content, c)` for a single character, on a character
list: the index of the first occurrence. -/
def idxOfChar (c : Char) : List Char → Option Nat
  | [] => none
  | x :: xs => if x == c then some 0 else (idxOfChar c xs).map (· + 1)

/-- `strings.LastIndex(content, c)` for a single character: the index of the
last occurrence. -/
def lastIdxOfChar (c : Char) (l : List Char) : Option Nat :=
  match idxOfChar c l.reverse with
  | none => none
  | some j => some (l.length - 1 - j)

/-- `cleanJSONResponse` (openai.go lines 87–99): the substring from the first
`'{'` to the last `'}'` inclusive; the input unchanged when either marker is
missing or the last `'}'` precedes the first `'{'`. -/
def cleanJSONResponse (content : String) : String :=
  match idxOfChar '{' content.data, lastIdxOfChar '}' content.data with
  | some start, some stop =>
    if stop < start then content
    else ⟨(content.data.drop start).take (stop + 1 - start)⟩
  | _, _ => content

/-- Modelled from the spec: «must extract the first top-level `{...}` JSON
object from the raw response».  Scans from the first `'{'` keeping a brace
depth and stops at the matching top-level `'}'`.  This is the comparison
point for the cleaner; no such function exists in the source. -/
def scanBalanced : Nat → List Char → List Char → Option (List Char)
  | _, _, [] => none
  | depth, acc, c :: rest =>
    if c == '{' then scanBalanced (depth + 1) (acc ++ [c]) rest
    else if c == '}' then
      if depth == 1 then some (acc ++ [c])
      else scanBalanced (depth - 1) (acc ++ [c]) rest
    else scanBalanced depth (acc ++ [c]) rest

/-- Modelled from the spec: the first top-level `{...}` object of a string
(`none` when there is no complete object). -/
def firstTopLevelJSONObject (s : String) : Option String :=
  match scanBalanced 0 [] (s.data.dropWhile (fun c => !(c == '{'))) with
  | some obj => some ⟨obj⟩
  | none => none

section Lemmas

lemma createIssue_not_mem_projectPhase (p : Provider) (item : Item)
    (t b : String) (ls : List String) (pr : Option ProjectInfo) :
    Ev.createIssue t b ls pr ∉ (projectPhase p item).1 := by
  by_cases hpar : item.parent == ""
  · simp [projectPhase, hpar]
  · rcases hg : p.getProjectByName item.parent with e | prj <;>
      simp [projectPhase, hpar, hg]

lemma createIssue_not_mem_publishTasks (p : Provider) (n : Int) (t : String)
    (proj : Option ProjectInfo) (ts : List String)
    (t' b : String) (ls : List String) (pr : Option ProjectInfo) :
    Ev.createIssue t' b ls pr ∉ (publishTasks p n t proj ts).1 := by
  induction ts with
  | nil => simp [publishTasks]
  | cons a rest ih =>
    rcases hc : p.createIssue (taskTitleOf a) (taskDescOf n t a) ["Task"] proj with e | iss <;>
      simp [publishTasks, hc, ih]

lemma createIssue_not_mem_linkTasks (p : Provider) (n : Int) (ids : List Int)
    (t' b : String) (ls : List String) (pr : Option ProjectInfo) :
    Ev.createIssue t' b ls pr ∉ linkTasks p n ids := by
  induction ids with
  | nil => simp [linkTasks]
  | cons a rest ih =>
    rcases ha : p.addSubIssue n a with e | u <;> simp [linkTasks, ha, ih]

lemma createIssue_not_mem_subTaskPhase (p : Provider) (auto : Bool)
    (content : GeneratedContent) (n : Int) (title : String) (proj : Option ProjectInfo)
    (t' b : String) (ls : List String) (pr : Option ProjectInfo) :
    Ev.createIssue t' b ls pr ∉ subTaskPhase p auto content n title proj := by
  unfold subTaskPhase
  by_cases hguard : (auto && decide (0 < content.suggestedTasks.length)) = true
  · simp only [hguard, if_true]
    intro hmem
    rcases List.mem_append.mp hmem with h | h
    · exact createIssue_not_mem_publishTasks p n title proj content.suggestedTasks t' b ls pr h
    · by_cases hl : 0 < (publishTasks p n title proj content.suggestedTasks).2.length
      · rw [if_pos hl] at h
        exact createIssue_not_mem_linkTasks p n _ t' b ls pr h
      · rw [if_neg hl] at h
        simp at h
  · simp [hguard]

end Lemmas


lemma computeIssueTitle_some (item : Item) (content : GeneratedContent) (title : String)
    (htc : computeIssueTitle item content = some title) :
    (content.title = "" →
      title = storyTag ++ (item.type ++ " " ++ item.context.take 50)) ∧
    (content.title ≠ "" → title = storyTag ++ content.title) := by
  unfold computeIssueTitle at htc
  by_cases hTitle : content.title = ""
  · have hb : (content.title == "") = true := by simp [hTitle]
    simp only [hb, if_true] at htc
    cases hgs : goSlice item.context 50 with
    | none => rw [hgs] at htc; cases htc
    | some contextHead =>
      rw [hgs] at htc
      unfold goSlice at hgs
      by_cases hlen : 50 ≤ item.context.length
      · rw [if_pos hlen] at hgs
        injection hgs with hgs
        injection htc with htc
        subst hgs
        exact ⟨fun _ => htc.symm, fun hne => absurd hTitle hne⟩
      · rw [if_neg hlen] at hgs; cases hgs
  · have hb : (content.title == "") = false := beq_eq_false_iff_ne.mpr hTitle
    simp only [hb, Bool.false_eq_true, if_false] at htc
    injection htc with htc
    exact ⟨fun h => absurd h hTitle, fun _ => htc.symm⟩

/-- C1: whenever the orchestrator publishes an issue for an item (a primary
`CreateIssue` call appears in the trace), its title is the decorative tag
followed by the generated title when that is non-empty, and otherwise the
tag followed by the item type and the first 50 characters of the context. -/
theorem C1_published_title (gen : Gen) (p : Provider) (language : String)
    (autoTasks : Bool) (item : Item) (content : GeneratedContent)
    (evs : List Ev) (r : StepResult) (t body : String) (labels : List String)
    (proj : Option ProjectInfo)
    (hg : gen item.type item.parent item.context item.criteria language autoTasks
        = Except.ok content)
    (hp : processItem gen p language autoTasks item = (evs, r))
    (hev : Ev.createIssue t body labels proj ∈ evs) :
    (content.title = "" →
      t = storyTag ++ (item.type ++ " " ++ item.context.take 50)) ∧
    (content.title ≠ "" → t = storyTag ++ content.title) := by
  unfold processItem at hp
  simp only [hg] at hp
  cases htc : computeIssueTitle item content with
  | none =>
    simp only [htc] at hp
    injection hp with h1 h2
    subst h1
    simp at hev
  | some title =>
    simp only [htc] at hp
    cases hci : p.createIssue title (formatDescription content) [item.type]
        (projectPhase p item).2 with
    | error e =>
      simp only [hci] at hp
      injection hp with h1 h2
      subst h1
      rcases List.mem_append.mp hev with h | h
      · exact absurd h (createIssue_not_mem_projectPhase p item t body labels proj)
      · simp only [List.mem_singleton] at h
        obtain ⟨rfl, -, -, -⟩ := Ev.createIssue.inj h
        exact computeIssueTitle_some item content t htc
    | ok createdIssue =>
      simp only [hci] at hp
      injection hp with h1 h2
      subst h1
      rcases List.mem_append.mp hev with h | h
      · rcases List.mem_append.mp h with h' | h'
        · exact absurd h' (createIssue_not_mem_projectPhase p item t body labels proj)
        · simp only [List.mem_singleton] at h'
          obtain ⟨rfl, -, -, -⟩ := Ev.createIssue.inj h'
          exact computeIssueTitle_some item content t htc
      · exact absurd h (createIssue_not_mem_subTaskPhase p autoTasks content
          createdIssue.number title (projectPhase p item).2 t body labels proj)

def demoContentTitled : GeneratedContent :=
  { title := "My Story", description := "D", acceptanceCriteria := ["A"],
    suggestedTasks := [], type := "User Story" }

def demoItem : Item :=
  { type := "User Story", parent := "", context := "ctx", criteria := [] }

def genOf (c : GeneratedContent) : Gen := fun _ _ _ _ _ _ => .ok c

def pAllOk : Provider :=
  { createIssue := fun _ _ _ _ => .ok { number := 1, id := 5, url := "u" },
    addSubIssue := fun _ _ => .ok (),
    getProjectByName := fun _ => .error "project not found" }

/-- C1 witness -/
theorem C1_published_title_witness :
    (demoContentTitled.title = "" →
      storyTag ++ "My Story"
        = storyTag ++ (demoItem.type ++ " " ++ demoItem.context.take 50)) ∧
    (demoContentTitled.title ≠ "" →
      storyTag ++ "My Story" = storyTag ++ demoContentTitled.title) :=
  C1_published_title (genOf demoContentTitled) pAllOk "english" false demoItem
    demoContentTitled
    [Ev.createIssue (storyTag ++ "My Story") (formatDescription demoContentTitled)
      ["User Story"] none]
    StepResult.ok
    (storyTag ++ "My Story") (formatDescription demoContentTitled) ["User Story"] none
    rfl rfl (by simp)


lemma mem_projectPhase_shape (p : Provider) (item : Item) (ev : Ev)
    (h : ev ∈ (projectPhase p item).1) :
    ev = Ev.lookupProject item.parent ∨ ∃ e, ev = Ev.warnProject item.parent e := by
  by_cases hpar : item.parent == ""
  · simp [projectPhase, hpar] at h
  · rcases hg : p.getProjectByName item.parent with e | prj <;>
      simp [projectPhase, hpar, hg] at h
    · rcases h with h | h
      · exact Or.inl h
      · exact Or.inr ⟨e, h⟩
    · exact Or.inl h

def shortItem : Item :=
  { type := "User Story", parent := "", context := "Pay", criteria := [] }

def untitledContent : GeneratedContent :=
  { title := "", description := "As a user...", acceptanceCriteria := ["Given..."],
    suggestedTasks := [], type := "User Story" }

/-- C2 (code bug evidence): for the item with non-empty context `"Pay"`
(3 characters, fewer than 50) and an empty generated title, the fallback
title computation does not produce a title: `item.Context[:50]` is an
out-of-range slice, so the orchestrator faults instead of synthesizing
`"<type> <first 50 characters of context>"`. -/
theorem C2_short_context_fault :
    computeIssueTitle shortItem untitledContent = none
    ∧ processItem (genOf untitledContent) pAllOk "english" false shortItem
        = ([], StepResult.fault) := ⟨rfl, rfl⟩

/-- C4: if the primary `CreateIssue` fails, `runGenerate` stops at once with
the error wrapped as `"failed to create issue: "`, having emitted only the
project-lookup events and the one failing create call: no sub-task publish
call, no `AddSubIssue` call, and nothing for the remaining items. -/
theorem C4_primary_create_fatal (gen : Gen) (p : Provider) (language : String)
    (autoTasks : Bool) (item : Item) (rest : List Item) (content : GeneratedContent)
    (title e : String)
    (hg : gen item.type item.parent item.context item.criteria language autoTasks
        = Except.ok content)
    (ht : computeIssueTitle item content = some title)
    (hfail : p.createIssue title (formatDescription content) [item.type]
        (projectPhase p item).2 = .error e) :
    runGenerate gen p language autoTasks (item :: rest)
      = ((projectPhase p item).1
          ++ [Ev.createIssue title (formatDescription content) [item.type]
               (projectPhase p item).2],
         .fatal ("failed to create issue: " ++ e))
    ∧ (∀ ev ∈ (projectPhase p item).1,
        (∀ s, ev ≠ Ev.createTask s) ∧ (∀ n id, ev ≠ Ev.link n id)) := by
  have hpi : processItem gen p language autoTasks item
      = ((projectPhase p item).1
          ++ [Ev.createIssue title (formatDescription content) [item.type]
               (projectPhase p item).2],
         .fatal ("failed to create issue: " ++ e)) := by
    unfold processItem
    simp only [hg, ht, hfail]
  constructor
  · unfold runGenerate
    simp only [hpi]
  · intro ev hev
    rcases mem_projectPhase_shape p item ev hev with h | ⟨e2, h⟩ <;> subst h <;>
      exact ⟨fun s => by simp, fun n id => by simp⟩

def demoItemParent : Item :=
  { type := "User Story", parent := "Team Alpha", context := "ctx", criteria := [] }

def pFailCreate : Provider :=
  { createIssue := fun _ _ _ _ => .error "401",
    addSubIssue := fun _ _ => .ok (),
    getProjectByName := fun _ => .error "project not found" }

/-- C4 witness -/
theorem C4_primary_create_fatal_witness :
    runGenerate (genOf demoContentTitled) pFailCreate "english" false
        (demoItemParent :: [demoItem])
      = ((projectPhase pFailCreate demoItemParent).1
          ++ [Ev.createIssue (storyTag ++ "My Story")
               (formatDescription demoContentTitled) ["User Story"]
               (projectPhase pFailCreate demoItemParent).2],
         .fatal ("failed to create issue: " ++ "401"))
    ∧ (∀ ev ∈ (projectPhase pFailCreate demoItemParent).1,
        (∀ s, ev ≠ Ev.createTask s) ∧ (∀ n id, ev ≠ Ev.link n id)) :=
  C4_primary_create_fatal (genOf demoContentTitled) pFailCreate "english" false
    demoItemParent [demoItem] demoContentTitled (storyTag ++ "My Story") "401"
    rfl rfl rfl

/-- C5: for a non-empty parent whose lookup fails, the orchestrator logs the
warning, then still issues the primary `CreateIssue` call with a `nil`
project; the lookup failure alone never makes the item (or the batch)
fail — the item's outcome is `ok` whenever the create call succeeds. -/
theorem C5_project_lookup_nonfatal (gen : Gen) (p : Provider) (language : String)
    (autoTasks : Bool) (item : Item) (content : GeneratedContent) (title e : String)
    (hg : gen item.type item.parent item.context item.criteria language autoTasks
        = Except.ok content)
    (ht : computeIssueTitle item content = some title)
    (hpar : item.parent ≠ "")
    (hlook : p.getProjectByName item.parent = .error e) :
    ∃ tailEvs result,
      processItem gen p language autoTasks item
        = (Ev.lookupProject item.parent :: Ev.warnProject item.parent e ::
            Ev.createIssue title (formatDescription content) [item.type] none :: tailEvs,
           result)
      ∧ (∀ iss, p.createIssue title (formatDescription content) [item.type] none
            = .ok iss → result = StepResult.ok) := by
  have hproj : projectPhase p item
      = ([Ev.lookupProject item.parent, Ev.warnProject item.parent e], none) := by
    unfold projectPhase
    have hb : (item.parent == "") = false := beq_eq_false_iff_ne.mpr hpar
    simp [hb, hlook]
  unfold processItem
  simp only [hg, ht, hproj]
  cases hci : p.createIssue title (formatDescription content) [item.type] none with
  | error e2 =>
    refine ⟨[], .fatal ("failed to create issue: " ++ e2), by simp, ?_⟩
    intro iss h
    cases h
  | ok createdIssue =>
    refine ⟨subTaskPhase p autoTasks content createdIssue.number title none,
      StepResult.ok, by simp, fun _ _ => rfl⟩

/-- C5 witness -/
theorem C5_project_lookup_nonfatal_witness :
    ∃ tailEvs result,
      processItem (genOf demoContentTitled) pAllOk "english" false demoItemParent
        = (Ev.lookupProject demoItemParent.parent ::
            Ev.warnProject demoItemParent.parent "project not found" ::
            Ev.createIssue (storyTag ++ "My Story")
              (formatDescription demoContentTitled) ["User Story"] none :: tailEvs,
           result)
      ∧ (∀ iss, pAllOk.createIssue (storyTag ++ "My Story")
            (formatDescription demoContentTitled) ["User Story"] none
            = .ok iss → result = StepResult.ok) :=
  C5_project_lookup_nonfatal (genOf demoContentTitled) pAllOk "english" false
    demoItemParent demoContentTitled (storyTag ++ "My Story") "project not found"
    rfl rfl (by decide) rfl


lemma publishTasks_append (p : Provider) (n : Int) (t : String)
    (proj : Option ProjectInfo) (xs ys : List String) :
    publishTasks p n t proj (xs ++ ys)
      = ((publishTasks p n t proj xs).1 ++ (publishTasks p n t proj ys).1,
         (publishTasks p n t proj xs).2 ++ (publishTasks p n t proj ys).2) := by
  induction xs with
  | nil => simp [publishTasks]
  | cons a rest ih =>
    rcases hc : p.createIssue (taskTitleOf a) (taskDescOf n t a) ["Task"] proj with e | iss
    · simp [publishTasks, hc, ih]
    · by_cases hid : (iss.id != 0) = true <;> simp [publishTasks, hc, ih, hid]

lemma publishTasks_allOk (p : Provider) (n : Int) (t : String)
    (proj : Option ProjectInfo) (xs : List String) (f : String → IssueInfo)
    (hok : ∀ a ∈ xs, p.createIssue (taskTitleOf a) (taskDescOf n t a) ["Task"] proj
        = .ok (f a) ∧ (f a).id ≠ 0) :
    publishTasks p n t proj xs
      = (xs.map Ev.createTask, xs.map fun a => (f a).id) := by
  induction xs with
  | nil => simp [publishTasks]
  | cons a rest ih =>
    obtain ⟨h1, h2⟩ := hok a (List.mem_cons_self a rest)
    have hid : ((f a).id != 0) = true := bne_iff_ne.mpr h2
    have ih' := ih (fun b hb => hok b (List.mem_cons_of_mem a hb))
    simp [publishTasks, h1, hid, ih']

lemma publishTasks_failCons (p : Provider) (n : Int) (t : String)
    (proj : Option ProjectInfo) (task : String) (rest : List String) (e : String)
    (hfail : p.createIssue (taskTitleOf task) (taskDescOf n t task) ["Task"] proj
        = .error e) :
    publishTasks p n t proj (task :: rest)
      = (Ev.createTask task :: Ev.warnTask task e :: (publishTasks p n t proj rest).1,
         (publishTasks p n t proj rest).2) := by
  simp [publishTasks, hfail]

lemma linkTasks_guard (p : Provider) (n : Int) (ids : List Int) :
    (if 0 < ids.length then linkTasks p n ids else []) = linkTasks p n ids := by
  cases ids <;> simp [linkTasks]

/-- C3: with sub-task generation requested and the suggested tasks being
`as ++ t :: bs`, where publishing `t` fails and every other child publishes
successfully with a non-zero id, the orchestrator still publishes all the
other children in list order, warns for `t` without linking it, links each
successfully published child in creation order, and goes on with the rest of
the batch. -/
theorem C3_subtask_failure_isolated (gen : Gen) (p : Provider) (language : String)
    (item : Item) (rest : List Item) (content : GeneratedContent)
    (title e : String) (iss : IssueInfo)
    (as bs : List String) (t : String) (f : String → IssueInfo)
    (hg : gen item.type item.parent item.context item.criteria language true
        = Except.ok content)
    (htasks : content.suggestedTasks = as ++ t :: bs)
    (ht : computeIssueTitle item content = some title)
    (hcreate : p.createIssue title (formatDescription content) [item.type]
        (projectPhase p item).2 = .ok iss)
    (hfail : p.createIssue (taskTitleOf t) (taskDescOf iss.number title t) ["Task"]
        (projectPhase p item).2 = .error e)
    (hok : ∀ a ∈ as ++ bs,
        p.createIssue (taskTitleOf a) (taskDescOf iss.number title a) ["Task"]
          (projectPhase p item).2 = .ok (f a) ∧ (f a).id ≠ 0) :
    runGenerate gen p language true (item :: rest)
      = ((projectPhase p item).1
          ++ [Ev.createIssue title (formatDescription content) [item.type]
               (projectPhase p item).2]
          ++ ((as.map Ev.createTask)
              ++ Ev.createTask t :: Ev.warnTask t e :: (bs.map Ev.createTask)
              ++ linkTasks p iss.number ((as ++ bs).map fun a => (f a).id))
          ++ (runGenerate gen p language true rest).1,
         (runGenerate gen p language true rest).2) := by
  have hokAs : ∀ a ∈ as, p.createIssue (taskTitleOf a) (taskDescOf iss.number title a)
      ["Task"] (projectPhase p item).2 = .ok (f a) ∧ (f a).id ≠ 0 :=
    fun a ha => hok a (List.mem_append_left bs ha)
  have hokBs : ∀ a ∈ bs, p.createIssue (taskTitleOf a) (taskDescOf iss.number title a)
      ["Task"] (projectPhase p item).2 = .ok (f a) ∧ (f a).id ≠ 0 :=
    fun a ha => hok a (List.mem_append_right as ha)
  have hpub : publishTasks p iss.number title (projectPhase p item).2
        content.suggestedTasks
      = ((as.map Ev.createTask)
          ++ Ev.createTask t :: Ev.warnTask t e :: (bs.map Ev.createTask),
         (as.map fun a => (f a).id) ++ (bs.map fun a => (f a).id)) := by
    rw [htasks, publishTasks_append,
      publishTasks_failCons p iss.number title (projectPhase p item).2 t bs e hfail,
      publishTasks_allOk p iss.number title (projectPhase p item).2 as f hokAs,
      publishTasks_allOk p iss.number title (projectPhase p item).2 bs f hokBs]
  have hsub : subTaskPhase p true content iss.number title (projectPhase p item).2
      = (as.map Ev.createTask)
          ++ Ev.createTask t :: Ev.warnTask t e :: (bs.map Ev.createTask)
          ++ linkTasks p iss.number ((as ++ bs).map fun a => (f a).id) := by
    unfold subTaskPhase
    have hlen : (true && decide (0 < content.suggestedTasks.length)) = true := by
      simp [htasks]
    simp only [hlen, if_true, hpub, linkTasks_guard, List.map_append, List.append_assoc]
  have hpi : processItem gen p language true item
      = ((projectPhase p item).1
          ++ [Ev.createIssue title (formatDescription content) [item.type]
               (projectPhase p item).2]
          ++ ((as.map Ev.createTask)
              ++ Ev.createTask t :: Ev.warnTask t e :: (bs.map Ev.createTask)
              ++ linkTasks p iss.number ((as ++ bs).map fun a => (f a).id)),
         StepResult.ok) := by
    unfold processItem
    simp only [hg, ht, hcreate, hsub]
  conv_lhs => rw [runGenerate]
  simp only [hpi]


def wTasksContent : GeneratedContent :=
  { title := "T", description := "D", acceptanceCriteria := ["A"],
    suggestedTasks := ["a", "b", "c"], type := "User Story" }

def pSubFail : Provider :=
  { createIssue := fun ttl _ _ _ =>
      if ttl == taskTitleOf "b" then .error "boom"
      else if ttl == storyTag ++ "T" then .ok { number := 2, id := 9, url := "u" }
      else .ok { number := 3, id := 7, url := "u" },
    addSubIssue := fun _ _ => .ok (),
    getProjectByName := fun _ => .error "nf" }

def fSub : String → IssueInfo := fun _ => { number := 3, id := 7, url := "u" }

/-- C3 witness -/
theorem C3_subtask_failure_isolated_witness :
    runGenerate (genOf wTasksContent) pSubFail "english" true [demoItem]
      = ((projectPhase pSubFail demoItem).1
          ++ [Ev.createIssue (storyTag ++ "T") (formatDescription wTasksContent)
               ["User Story"] (projectPhase pSubFail demoItem).2]
          ++ (((["a"] : List String).map Ev.createTask)
              ++ Ev.createTask "b" :: Ev.warnTask "b" "boom"
                :: ((["c"] : List String).map Ev.createTask)
              ++ linkTasks pSubFail 2
                  (((["a"] ++ ["c"]) : List String).map fun a => (fSub a).id))
          ++ (runGenerate (genOf wTasksContent) pSubFail "english" true []).1,
         (runGenerate (genOf wTasksContent) pSubFail "english" true []).2) :=
  C3_subtask_failure_isolated (genOf wTasksContent) pSubFail "english" demoItem []
    wTasksContent (storyTag ++ "T") "boom" { number := 2, id := 9, url := "u" }
    ["a"] ["c"] "b" fSub rfl rfl rfl rfl rfl
    (by
      intro a ha
      simp only [List.singleton_append, List.mem_cons, List.not_mem_nil, or_false] at ha
      rcases ha with rfl | rfl
      · exact ⟨rfl, by decide⟩
      · exact ⟨rfl, by decide⟩)

lemma mem_publishTasks_ids_ne_zero (p : Provider) (n : Int) (t : String)
    (proj : Option ProjectInfo) (ts : List String) (id : Int)
    (h : id ∈ (publishTasks p n t proj ts).2) : id ≠ 0 := by
  induction ts with
  | nil => simp [publishTasks] at h
  | cons a rest ih =>
    rcases hc : p.createIssue (taskTitleOf a) (taskDescOf n t a) ["Task"] proj with e | iss
    · rw [publishTasks_failCons p n t proj a rest e hc] at h
      exact ih h
    · cases hid : (iss.id != 0) <;> simp [publishTasks, hc, hid] at h
      · exact ih h
      · rcases h with rfl | h
        · exact bne_iff_ne.mp hid
        · exact ih h

lemma link_mem_linkTasks_ids (p : Provider) (n : Int) (ids : List Int) (m id : Int)
    (h : Ev.link m id ∈ linkTasks p n ids) : id ∈ ids := by
  induction ids with
  | nil => simp [linkTasks] at h
  | cons a rest ih =>
    rcases ha : p.addSubIssue n a with e | u <;> simp only [linkTasks, ha,
        List.mem_cons] at h
    · rcases h with h | h | h
      · obtain ⟨-, h2⟩ := Ev.link.inj h
        rw [h2]
        exact List.mem_cons_self a rest
      · cases h
      · exact List.mem_cons_of_mem a (ih h)
    · rcases h with h | h
      · obtain ⟨-, h2⟩ := Ev.link.inj h
        rw [h2]
        exact List.mem_cons_self a rest
      · exact List.mem_cons_of_mem a (ih h)

lemma link_not_mem_publishTasks_events (p : Provider) (n : Int) (t : String)
    (proj : Option ProjectInfo) (ts : List String) (m id : Int) :
    Ev.link m id ∉ (publishTasks p n t proj ts).1 := by
  induction ts with
  | nil => simp [publishTasks]
  | cons a rest ih =>
    rcases hc : p.createIssue (taskTitleOf a) (taskDescOf n t a) ["Task"] proj with e | iss <;>
      simp [publishTasks, hc, ih]

lemma link_mem_subTaskPhase (p : Provider) (auto : Bool) (content : GeneratedContent)
    (n : Int) (title : String) (proj : Option ProjectInfo) (m id : Int)
    (h : Ev.link m id ∈ subTaskPhase p auto content n title proj) :
    id ∈ (publishTasks p n title proj content.suggestedTasks).2 := by
  unfold subTaskPhase at h
  by_cases hguard : (auto && decide (0 < content.suggestedTasks.length)) = true
  · simp only [hguard, if_true] at h
    rcases List.mem_append.mp h with h | h
    · exact absurd h (link_not_mem_publishTasks_events p n title proj
        content.suggestedTasks m id)
    · by_cases hl : 0 < (publishTasks p n title proj content.suggestedTasks).2.length
      · rw [if_pos hl] at h
        exact link_mem_linkTasks_ids p n _ m id h
      · rw [if_neg hl] at h
        simp at h
  · simp [hguard] at h

lemma link_not_mem_projectPhase (p : Provider) (item : Item) (m id : Int) :
    Ev.link m id ∉ (projectPhase p item).1 := by
  intro h
  rcases mem_projectPhase_shape p item _ h with h | ⟨e, h⟩ <;> simp at h

lemma processItem_link_ids (gen : Gen) (p : Provider) (language : String) (auto : Bool)
    (item : Item) (evs : List Ev) (r : StepResult) (m id : Int)
    (hp : processItem gen p language auto item = (evs, r))
    (h : Ev.link m id ∈ evs) :
    ∃ (n : Int) (title : String) (proj : Option ProjectInfo) (ts : List String),
      id ∈ (publishTasks p n title proj ts).2 := by
  unfold processItem at hp
  cases hgen : gen item.type item.parent item.context item.criteria language auto with
  | error e =>
    simp only [hgen] at hp
    injection hp with h1 h2
    subst h1
    simp at h
  | ok content =>
    simp only [hgen] at hp
    cases htc : computeIssueTitle item content with
    | none =>
      simp only [htc] at hp
      injection hp with h1 h2
      subst h1
      simp at h
    | some title =>
      simp only [htc] at hp
      cases hci : p.createIssue title (formatDescription content) [item.type]
          (projectPhase p item).2 with
      | error e =>
        simp only [hci] at hp
        injection hp with h1 h2
        subst h1
        rcases List.mem_append.mp h with h' | h'
        · exact absurd h' (link_not_mem_projectPhase p item m id)
        · simp at h'
      | ok iss =>
        simp only [hci] at hp
        injection hp with h1 h2
        subst h1
        rcases List.mem_append.mp h with h' | h'
        · rcases List.mem_append.mp h' with h'' | h''
          · exact absurd h'' (link_not_mem_projectPhase p item m id)
          · simp at h''
        · exact ⟨iss.number, title, (projectPhase p item).2, content.suggestedTasks,
            link_mem_subTaskPhase p auto content iss.number title
              (projectPhase p item).2 m id h'⟩

lemma runGenerate_link_ids (gen : Gen) (p : Provider) (language : String)
    (auto : Bool) : ∀ (items : List Item) (evs : List Ev) (r : StepResult) (m id : Int),
    runGenerate gen p language auto items = (evs, r) → Ev.link m id ∈ evs →
    ∃ (n : Int) (title : String) (proj : Option ProjectInfo) (ts : List String),
      id ∈ (publishTasks p n title proj ts).2 := by
  intro items
  induction items with
  | nil =>
    intro evs r m id h hm
    injection h with h1 h2
    subst h1
    simp at hm
  | cons item rest ih =>
    intro evs r m id h hm
    rw [runGenerate] at h
    cases hpi : processItem gen p language auto item with
    | mk evs1 r1 =>
      rw [hpi] at h
      cases r1 with
      | ok =>
        simp only at h
        injection h with h1 h2
        subst h1
        rcases List.mem_append.mp hm with h' | h'
        · exact processItem_link_ids gen p language auto item evs1 .ok m id hpi h'
        · exact ih (runGenerate gen p language auto rest).1
            (runGenerate gen p language auto rest).2 m id rfl h'
      | fatal msg =>
        simp only at h
        injection h with h1 h2
        subst h1
        exact processItem_link_ids gen p language auto item evs1 (.fatal msg) m id hpi hm
      | fault =>
        simp only at h
        injection h with h1 h2
        subst h1
        exact processItem_link_ids gen p language auto item evs1 .fault m id hpi hm

lemma publishTasks_ids_nil_of_zero (p : Provider) (n : Int) (t : String)
    (proj : Option ProjectInfo) (ts : List String)
    (hz : ∀ ttl d ls pr iss, p.createIssue ttl d ls pr = .ok iss → iss.id = 0) :
    (publishTasks p n t proj ts).2 = [] := by
  induction ts with
  | nil => rfl
  | cons a rest ih =>
    rcases hc : p.createIssue (taskTitleOf a) (taskDescOf n t a) ["Task"] proj with e | iss
    · simp [publishTasks, hc, ih]
    · have hz0 : iss.id = 0 := hz _ _ _ _ _ hc
      simp [publishTasks, hc, hz0, ih]

/-- C9: no `AddSubIssue` call ever carries a child id equal to 0 — a
published sub-task whose `GetID()` is 0 is excluded from linking; and with a
provider whose created issues all report id 0 (as the console provider's
do), no link call happens at all. -/
theorem C9_no_zero_child_links (gen : Gen) (p : Provider) (language : String)
    (autoTasks : Bool) (items : List Item) (evs : List Ev) (r : StepResult)
    (h : runGenerate gen p language autoTasks items = (evs, r)) :
    (∀ n id, Ev.link n id ∈ evs → id ≠ 0)
    ∧ ((∀ ttl d ls pr iss, p.createIssue ttl d ls pr = .ok iss → iss.id = 0) →
        ∀ n id, Ev.link n id ∉ evs) := by
  constructor
  · intro n id hm
    obtain ⟨n', t', proj', ts', hid⟩ :=
      runGenerate_link_ids gen p language autoTasks items evs r n id h hm
    exact mem_publishTasks_ids_ne_zero p n' t' proj' ts' id hid
  · intro hz n id hm
    obtain ⟨n', t', proj', ts', hid⟩ :=
      runGenerate_link_ids gen p language autoTasks items evs r n id h hm
    rw [publishTasks_ids_nil_of_zero p n' t' proj' ts' hz] at hid
    simp at hid

/-- A provider behaving like `ConsoleProvider.CreateIssue`: every create
succeeds and the returned issue reports number 0 and id 0. -/
def pZero : Provider :=
  { createIssue := fun _ _ _ _ => .ok { number := 0, id := 0, url := "" },
    addSubIssue := fun _ _ => .ok (),
    getProjectByName := fun _ => .error "nf" }

/-- C9 witness -/
theorem C9_no_zero_child_links_witness :
    (5 : Int) ≠ 0
    ∧ Ev.link 0 0 ∉ (runGenerate (genOf wTasksContent) pZero "english" true [demoItem]).1 :=
  ⟨(C9_no_zero_child_links (genOf wTasksContent) pAllOk "english" true [demoItem]
      (runGenerate (genOf wTasksContent) pAllOk "english" true [demoItem]).1
      (runGenerate (genOf wTasksContent) pAllOk "english" true [demoItem]).2
      rfl).1 1 5 (by decide),
   (C9_no_zero_child_links (genOf wTasksContent) pZero "english" true [demoItem]
      (runGenerate (genOf wTasksContent) pZero "english" true [demoItem]).1
      (runGenerate (genOf wTasksContent) pZero "english" true [demoItem]).2
      rfl).2 (by intro ttl d ls pr iss hh; cases hh; rfl) 0 0⟩


def unreqContent : GeneratedContent :=
  { title := "T", description := "D", acceptanceCriteria := ["A"],
    suggestedTasks := ["T1"], type := "User Story" }

/-- C6 counterexample: with sub-task generation NOT requested
(`autoTasks = false`) but an artifact carrying one suggested task, the body
given to the primary `CreateIssue` call still contains the
`"## Suggested Tasks"` heading — `formatDescription` never consults the
request flag. -/
theorem C6_counterexample :
    processItem (genOf unreqContent) pAllOk "english" false demoItem
      = ([Ev.createIssue (storyTag ++ "T") (formatDescription unreqContent)
           ["User Story"] none], StepResult.ok)
    ∧ stHeading.data <:+: (formatDescription unreqContent).data := by
  refine ⟨rfl, ?_⟩
  decide

/-- C6 (amended): the issue body carries the `"## Suggested Tasks"` section
exactly when the artifact's suggested-tasks list is non-empty, independently
of the sub-task request flag; with an empty list nothing beyond the
description and the acceptance-criteria section is emitted. -/
theorem C6_amended :
    (∀ content : GeneratedContent, content.suggestedTasks ≠ [] →
      stHeading.data <:+: (formatDescription content).data)
    ∧ (∀ content : GeneratedContent, content.suggestedTasks = [] →
      formatDescription content
        = content.description ++ "\n\n"
          ++ (if 0 < content.acceptanceCriteria.length then
                acHeading ++ numbered content.acceptanceCriteria ++ "\n" else "")) := by
  constructor
  · intro content hne
    have hlen : 0 < content.suggestedTasks.length := List.length_pos.mpr hne
    simp only [formatDescription]
    rw [if_pos hlen]
    refine ⟨((if 0 < content.acceptanceCriteria.length then
        content.description ++ "\n\n" ++ acHeading
          ++ numbered content.acceptanceCriteria ++ "\n"
      else content.description ++ "\n\n")).data,
      (numbered content.suggestedTasks ++ "\n").data, ?_⟩
    by_cases hac : 0 < content.acceptanceCriteria.length <;>
      simp [hac, String.data_append, List.append_assoc]
  · intro content hemp
    simp only [formatDescription, hemp]
    by_cases hac : 0 < content.acceptanceCriteria.length <;>
      simp [hac, String.append_assoc]

/-- C6 amended witness -/
theorem C6_amended_witness :
    (stHeading.data <:+: (formatDescription unreqContent).data)
    ∧ formatDescription demoContentTitled
        = demoContentTitled.description ++ "\n\n"
          ++ (if 0 < demoContentTitled.acceptanceCriteria.length then
                acHeading ++ numbered demoContentTitled.acceptanceCriteria ++ "\n"
              else "") :=
  ⟨C6_amended.1 unreqContent (by decide), C6_amended.2 demoContentTitled rfl⟩

/-- C7 counterexample: the Google Sheets reader accepts a data row whose
type cell is not a recognized item type — `Read` returns it as an item
instead of failing (mirroring the repository's own
`TestGoogleSheetsReader_Read_InvalidType`). -/
def invalidTypeItem : Item :=
  { type := "InvalidType", parent := "Parent1", context := "Context1",
    criteria := ["Crit1"] }

theorem C7_counterexample :
    googleSheetsRead [["Type", "Parent", "Context", "Criteria"],
        ["InvalidType", "Parent1", "Context1", "Crit1"]]
      = Except.ok [invalidTypeItem]
    ∧ isValidItemType "InvalidType" = false := ⟨rfl, rfl⟩

lemma parseXLSXRows_error_of_invalid (row : List String)
    (hlen : 4 ≤ row.length) (hinv : isValidItemType (row.getD 0 "") = false) :
    ∀ (body : List (List String)) (i : Nat), i ≠ 0 → row ∈ body →
    ∃ e, parseXLSXRows i body = Except.error e := by
  intro body
  induction body with
  | nil =>
    intro i hi hrow
    simp at hrow
  | cons r rest ih =>
    intro i hi hrow
    have hi' : (i == 0) = false := by simpa using hi
    rcases List.mem_cons.mp hrow with rfl | hrow'
    · have hlt : ¬(row.length < 4) := not_lt.mpr hlen
      rw [parseXLSXRows]
      simp only [hi', Bool.false_eq_true, if_false]
      rw [if_neg hlt]
      simp only [hinv, Bool.not_false, if_true]
      exact ⟨_, rfl⟩
    · obtain ⟨e, he⟩ := ih (i + 1) (Nat.succ_ne_zero i) hrow'
      rw [parseXLSXRows]
      simp only [hi', Bool.false_eq_true, if_false]
      by_cases hr4 : r.length < 4
      · rw [if_pos hr4]
        exact ⟨e, he⟩
      · rw [if_neg hr4]
        by_cases hrv : isValidItemType (r.getD 0 "")
        · simp only [hrv, Bool.not_true, Bool.false_eq_true, if_false, he]
          exact ⟨e, rfl⟩
        · simp only [Bool.not_eq_true] at hrv
          simp only [hrv, Bool.not_false, if_true]
          exact ⟨_, rfl⟩

/-- C7 (amended): a data row (at least 4 cells) with an unrecognized type
makes the XLSX reader's `Read` return an error and no items; the Google
Sheets reader performs no type validation — its row loop never fails, and
the unrecognized row is returned as an item with the literal type string. -/
theorem C7_amended :
    (∀ (header : List String) (body : List (List String)) (row : List String),
      row ∈ body → 4 ≤ row.length → isValidItemType (row.getD 0 "") = false →
      ∀ items, parseXLSXRows 0 (header :: body) ≠ Except.ok items)
    ∧ (∀ values, googleSheetsRead values = Except.ok (parseGoogleRows 0 values)) := by
  constructor
  · intro header body row hrow hlen hinv items hok
    have h0 : parseXLSXRows 0 (header :: body) = parseXLSXRows 1 body := by
      rw [parseXLSXRows]
      simp
    obtain ⟨e, he⟩ := parseXLSXRows_error_of_invalid row hlen hinv body 1 one_ne_zero hrow
    rw [h0, he] at hok
    cases hok
  · intro values
    rfl

/-- C7 amended witness -/
theorem C7_amended_witness :
    parseXLSXRows 0 [["Type", "P", "C", "Cr"], ["Bad", "P", "C", "Cr"]]
        ≠ Except.ok []
    ∧ googleSheetsRead [["Bad", "P", "C", "Cr"]]
        = Except.ok (parseGoogleRows 0 [["Bad", "P", "C", "Cr"]]) :=
  ⟨C7_amended.1 ["Type", "P", "C", "Cr"] [["Bad", "P", "C", "Cr"]]
      ["Bad", "P", "C", "Cr"] (by simp) (by decide) (by decide) [],
   C7_amended.2 [["Bad", "P", "C", "Cr"]]⟩


lemma idxOfChar_append_of_not_mem (c : Char) (xs ys : List Char) (h : c ∉ xs) :
    idxOfChar c (xs ++ ys) = (idxOfChar c ys).map (· + xs.length) := by
  induction xs with
  | nil =>
    cases hy : idxOfChar c ys <;> simp [hy]
  | cons a rest ih =>
    have hne : (a == c) = false := by
      simp only [beq_eq_false_iff_ne, ne_eq]
      rintro rfl
      exact h (List.mem_cons_self a rest)
    have ih' := ih (fun hm => h (List.mem_cons_of_mem a hm))
    simp only [List.cons_append, idxOfChar, hne, Bool.false_eq_true, if_false,
      List.length_cons, List.append_eq]
    rw [ih']
    cases hy : idxOfChar c ys
    · simp
    · simp
      omega

lemma idxOfChar_cons_self (c : Char) (rest : List Char) :
    idxOfChar c (c :: rest) = some 0 := by
  simp [idxOfChar]

/-- C8 (amended): the cleaner keeps everything from the first `'{'` through
the LAST `'}'`: for any block starting with `'{'` and ending with `'}'`,
leading commentary containing no `'{'` and trailing commentary containing no
`'}'` are stripped and the block is returned verbatim.  (When the trailing
commentary contains a `'}'`, the extracted text extends past the first
top-level object — see the counterexample.) -/
theorem C8_amended (pre mid post : List Char)
    (hpre : '{' ∉ pre) (hpost : '}' ∉ post) :
    cleanJSONResponse ⟨pre ++ ('{' :: (mid ++ ['}'])) ++ post⟩
      = ⟨'{' :: (mid ++ ['}'])⟩ := by
  have h1 : idxOfChar '{' (pre ++ ('{' :: (mid ++ ['}'])) ++ post)
      = some pre.length := by
    rw [List.append_assoc, List.cons_append, idxOfChar_append_of_not_mem _ _ _ hpre,
      idxOfChar_cons_self]
    simp
  have h2 : lastIdxOfChar '}' (pre ++ ('{' :: (mid ++ ['}'])) ++ post)
      = some (pre.length + mid.length + 1) := by
    unfold lastIdxOfChar
    have hrev : (pre ++ ('{' :: (mid ++ ['}'])) ++ post).reverse
        = post.reverse ++ ('}' :: (mid.reverse ++ ('{' :: pre.reverse))) := by
      simp
    rw [hrev, idxOfChar_append_of_not_mem _ _ _ (by simpa using hpost),
      idxOfChar_cons_self]
    simp [List.length_append]
    omega
  simp only [cleanJSONResponse, h1, h2]
  have hle : ¬(pre.length + mid.length + 1 < pre.length) := by omega
  rw [if_neg hle]
  have harith : pre.length + mid.length + 1 + 1 - pre.length = mid.length + 2 := by
    omega
  rw [harith]
  have hdrop : (pre ++ ('{' :: (mid ++ ['}'])) ++ post).drop pre.length
      = ('{' :: (mid ++ ['}'])) ++ post := by
    rw [List.append_assoc, List.drop_left]
  rw [hdrop]
  have hlen2 : ('{' :: (mid ++ ['}'])).length = mid.length + 2 := by simp
  rw [← hlen2, List.take_left]


/-- C8 counterexample: on a response whose trailing commentary contains a
`'}'`, the cleaner does NOT extract the first top-level JSON object: it
returns everything up to the last `'}'` (here, the whole string), which
differs from the first top-level object. -/
theorem C8_counterexample :
    cleanJSONResponse "\x7ba:1\x7d x\x7d" = "\x7ba:1\x7d x\x7d"
    ∧ firstTopLevelJSONObject "\x7ba:1\x7d x\x7d" = some "\x7ba:1\x7d"
    ∧ ("\x7ba:1\x7d x\x7d" : String) ≠ "\x7ba:1\x7d" :=
  ⟨rfl, rfl, by decide⟩

/-- C8 amended witness -/
theorem C8_amended_witness :
    cleanJSONResponse ⟨"x ".data ++ ('{' :: ("a:1".data ++ ['\x7d'])) ++ " y".data⟩
      = ⟨'{' :: ("a:1".data ++ ['\x7d'])⟩ :=
  C8_amended "x ".data "a:1".data " y".data (by decide) (by decide)

lemma parseXLSXRows_mem_criteria : ∀ (rows : List (List String)) (i : Nat)
    (items : List Item), parseXLSXRows i rows = Except.ok items →
    ∀ it ∈ items, 1 ≤ it.criteria.length := by
  intro rows
  induction rows with
  | nil =>
    intro i items h it hit
    injection h with h1
    subst h1
    simp at hit
  | cons r rest ih =>
    intro i items h it hit
    rw [parseXLSXRows] at h
    by_cases hi : (i == 0) = true
    · rw [if_pos hi] at h
      exact ih (i + 1) items h it hit
    · rw [if_neg hi] at h
      by_cases h4 : r.length < 4
      · rw [if_pos h4] at h
        exact ih (i + 1) items h it hit
      · rw [if_neg h4] at h
        by_cases hv : isValidItemType (r.getD 0 "")
        · simp only [hv, Bool.not_true, Bool.false_eq_true, if_false] at h
          cases hrec : parseXLSXRows (i + 1) rest with
          | error e =>
            rw [hrec] at h
            cases h
          | ok items' =>
            rw [hrec] at h
            injection h with h1
            subst h1
            rcases List.mem_cons.mp hit with rfl | hit'
            · have h3 : 3 < r.length := by omega
              show 1 ≤ (if 3 < r.length then r.drop 3 else []).length
              rw [if_pos h3, List.length_drop]
              omega
            · exact ih (i + 1) items' hrec it hit'
        · simp only [Bool.not_eq_true] at hv
          simp only [hv, Bool.not_false, if_true] at h
          cases h

lemma parseGoogleRows_mem_criteria : ∀ (rows : List (List String)) (i : Nat)
    (it : Item), it ∈ parseGoogleRows i rows → 1 ≤ it.criteria.length := by
  intro rows
  induction rows with
  | nil =>
    intro i it hit
    simp [parseGoogleRows] at hit
  | cons r rest ih =>
    intro i it hit
    rw [parseGoogleRows] at hit
    by_cases hi : (i == 0) = true
    · rw [if_pos hi] at hit
      exact ih (i + 1) it hit
    · rw [if_neg hi] at hit
      by_cases h4 : r.length < 4
      · rw [if_pos h4] at hit
        exact ih (i + 1) it hit
      · rw [if_neg h4] at hit
        rcases List.mem_cons.mp hit with rfl | hit'
        · have h3 : 3 < r.length := by omega
          show 1 ≤ (if 3 < r.length then r.drop 3 else []).length
          rw [if_pos h3, List.length_drop]
          omega
        · exact ih (i + 1) it hit'

/-- C10: both readers silently skip a non-header row with fewer than 4 cells
(same result as if the row were absent, no error), and every item either
reader returns carries at least one criteria cell. -/
theorem C10_row_skipping_and_criteria :
    (∀ (i : Nat) (row : List String) (rest : List (List String)),
      i ≠ 0 → row.length < 4 →
      parseXLSXRows i (row :: rest) = parseXLSXRows (i + 1) rest)
    ∧ (∀ (i : Nat) (row : List String) (rest : List (List String)),
      i ≠ 0 → row.length < 4 →
      parseGoogleRows i (row :: rest) = parseGoogleRows (i + 1) rest)
    ∧ (∀ (rows : List (List String)) (items : List Item),
      parseXLSXRows 0 rows = Except.ok items → ∀ it ∈ items, 1 ≤ it.criteria.length)
    ∧ (∀ (rows : List (List String)) (it : Item),
      it ∈ parseGoogleRows 0 rows → 1 ≤ it.criteria.length) := by
  refine ⟨?_, ?_, ?_, ?_⟩
  · intro i row rest hi h4
    have hi' : (i == 0) = false := by simpa using hi
    rw [parseXLSXRows]
    simp only [hi', Bool.false_eq_true, if_false, if_pos h4]
  · intro i row rest hi h4
    have hi' : (i == 0) = false := by simpa using hi
    rw [parseGoogleRows]
    simp only [hi', Bool.false_eq_true, if_false, if_pos h4]
  · intro rows items h
    exact parseXLSXRows_mem_criteria rows 0 items h
  · intro rows it h
    exact parseGoogleRows_mem_criteria rows 0 it h

def demoXLSXItem : Item :=
  { type := "User Story", parent := "P", context := "C", criteria := ["Cr"] }

/-- C10 witness -/
theorem C10_row_skipping_and_criteria_witness :
    parseXLSXRows 1 [["only"]] = parseXLSXRows 2 []
    ∧ parseGoogleRows 1 [["only"]] = parseGoogleRows 2 []
    ∧ 1 ≤ demoXLSXItem.criteria.length
    ∧ 1 ≤ invalidTypeItem.criteria.length :=
  ⟨C10_row_skipping_and_criteria.1 1 ["only"] [] one_ne_zero (by decide),
   C10_row_skipping_and_criteria.2.1 1 ["only"] [] one_ne_zero (by decide),
   C10_row_skipping_and_criteria.2.2.1 [["Type"], ["User Story", "P", "C", "Cr"]]
     [demoXLSXItem] rfl demoXLSXItem (by simp),
   C10_row_skipping_and_criteria.2.2.2
     [["Type"], ["InvalidType", "Parent1", "Context1", "Crit1"]] invalidTypeItem
     (by decide)⟩

end Aigile
